import Mathlib

/-!
Verification of the template static-analysis engine of the NunjucksToolbox
repository (`src/Commands/nunjucks_core.py`): the structural analyzer
(`NunjucksAnalyzer.analyze`) and the indentation formatter
(`NunjucksFormatter.format`).

The embedding is a direct translation of the Python source:

* Python strings are `List Char` (with `String` wrappers at the top level).
* Python `str.splitlines` is modelled on the line boundaries `\n`, `\r\n`
  and `\r` (the exotic boundaries `\v`, `\f`, `\x1c`-`\x1e`, `\x85`,
  ` `, ` ` are not modelled; no claim depends on them).
* Python `str.strip()` is modelled on the ASCII whitespace characters.
* The regular expressions of `NunjucksPatterns` are each translated into a
  sequence of tokens (`RTok`) matched by a backtracking matcher
  (`matchToks`) whose boolean search (`searchToks`) agrees with
  `re.search` on these patterns: alternations `(?:a|b)` and the optional
  group `(?:\s+\w+)?` are expanded into unions of token sequences, which
  preserves the existence of a match.  `\s` and `\w` are modelled as ASCII
  classes.
-/

namespace NunjucksToolbox

/-- ASCII whitespace, as matched by Python's `\s` and stripped by `str.strip()`. -/
def isPyWS (c : Char) : Bool :=
  c == ' ' || c == '\t' || c == '\n' || c == '\r' || c == '\x0b' || c == '\x0c'

/-- ASCII word character, as matched by Python's `\w`. -/
def isWordChar (c : Char) : Bool :=
  c.isAlphanum || c == '_'

/-- A quote character, the class `["\']` of the inheritance patterns. -/
def isQuoteChar (c : Char) : Bool :=
  c == '"' || c == '\x27'

/-- Token of the pattern language into which the source regexes are
translated: a literal, a case-insensitive literal, a single character of a
class, zero-or-more / one-or-more of a class, or the boundary test `\b`
placed after a word (success iff not followed by a word character). -/
inductive RTok where
  | lit : String → RTok
  | litCI : String → RTok
  | one : (Char → Bool) → RTok
  | star : (Char → Bool) → RTok
  | plus : (Char → Bool) → RTok
  | noWordAhead : RTok

/-- Case-insensitive prefix test (for `re.IGNORECASE`). -/
def ciPrefixTest : List Char → List Char → Bool
  | [], _ => true
  | _ :: _, [] => false
  | a :: as, b :: bs => (a.toLower == b.toLower) && ciPrefixTest as bs

/-- Backtracking matcher with explicit fuel (structural recursion, so that
the kernel can evaluate it; every recursive call strictly decreases
`ts.length + cs.length`, so any fuel above that sum is never exhausted). -/
def matchToksFuel : Nat → List RTok → List Char → Bool
  | 0, _, _ => false
  | _ + 1, [], _ => true
  | fuel + 1, .lit s :: ts, cs =>
      s.toList.isPrefixOf cs && matchToksFuel fuel ts (cs.drop s.toList.length)
  | fuel + 1, .litCI s :: ts, cs =>
      ciPrefixTest s.toList cs && matchToksFuel fuel ts (cs.drop s.toList.length)
  | fuel + 1, .one p :: ts, cs =>
      (match cs with
       | [] => false
       | c :: cs' => p c && matchToksFuel fuel ts cs')
  | fuel + 1, .star p :: ts, cs =>
      matchToksFuel fuel ts cs ||
        (match cs with
         | [] => false
         | c :: cs' => p c && matchToksFuel fuel (.star p :: ts) cs')
  | fuel + 1, .plus p :: ts, cs =>
      (match cs with
       | [] => false
       | c :: cs' => p c && matchToksFuel fuel (.star p :: ts) cs')
  | fuel + 1, .noWordAhead :: ts, cs =>
      (match cs with
       | [] => true
       | c :: _ => !isWordChar c) && matchToksFuel fuel ts cs

/-- Backtracking matcher: does the token sequence match a prefix of `cs`?
`star`/`plus` backtrack, so the boolean agrees with the regex semantics. -/
def matchToks (ts : List RTok) (cs : List Char) : Bool :=
  matchToksFuel (ts.length + cs.length + 1) ts cs

/-- `re.search`: does the token sequence match at some position of `cs`? -/
def searchToks (ts : List RTok) : List Char → Bool
  | [] => matchToks ts []
  | cs@(_ :: cs') => matchToks ts cs || searchToks ts cs'

/-- Deterministic maximal-munch matcher returning the remainder after the
match.  Used for the capturing patterns, all of which are munch-safe: every
`star`/`plus` class there is disjoint from the first character of the
following token, so the maximal munch finds the match whenever the
backtracking matcher does. -/
def munchRem : List RTok → List Char → Option (List Char)
  | [], cs => some cs
  | .lit s :: ts, cs =>
      if s.toList.isPrefixOf cs then munchRem ts (cs.drop s.toList.length) else none
  | .litCI s :: ts, cs =>
      if ciPrefixTest s.toList cs then munchRem ts (cs.drop s.toList.length) else none
  | .one p :: ts, cs =>
      (match cs with
       | [] => none
       | c :: cs' => if p c then munchRem ts cs' else none)
  | .star p :: ts, cs => munchRem ts (cs.dropWhile p)
  | .plus p :: ts, cs =>
      (match cs with
       | [] => none
       | c :: _ => if p c then munchRem ts (cs.dropWhile p) else none)
  | .noWordAhead :: ts, cs =>
      (match cs with
       | [] => munchRem ts cs
       | c :: _ => if isWordChar c then none else munchRem ts cs)

/-- At one position: match `pre`, then capture the greedy nonempty `(\w+)`. -/
def captureWordAt (pre : List RTok) (cs : List Char) : Option (List Char) :=
  match munchRem pre cs with
  | some rem =>
      let cap := rem.takeWhile isWordChar
      if cap.isEmpty then none else some cap
  | none => none

/-- Leftmost position where `pre` then `(\w+)` matches; the capture. -/
def scanCaptureWord (pre : List RTok) : List Char → Option (List Char)
  | [] => captureWordAt pre []
  | cs@(_ :: cs') =>
      match captureWordAt pre cs with
      | some cap => some cap
      | none => scanCaptureWord pre cs'

/-- At one position: match `pre`, then `["\']([^"\']+)["\']`; the capture. -/
def captureQuotedAt (pre : List RTok) (cs : List Char) : Option (List Char) :=
  match munchRem pre cs with
  | some (q :: rest) =>
      if isQuoteChar q then
        let cap := rest.takeWhile (fun c => !isQuoteChar c)
        if cap.isEmpty then none
        else
          match rest.drop cap.length with
          | q2 :: _ => if isQuoteChar q2 then some cap else none
          | [] => none
      else none
  | _ => none

/-- Leftmost position where `pre` then a quoted name matches; the capture. -/
def scanCaptureQuoted (pre : List RTok) : List Char → Option (List Char)
  | [] => captureQuotedAt pre []
  | cs@(_ :: cs') =>
      match captureQuotedAt pre cs with
      | some cap => some cap
      | none => scanCaptureQuoted pre cs'

/-- Python `str.lstrip()` (ASCII whitespace). -/
def pyLStrip (cs : List Char) : List Char := cs.dropWhile isPyWS

/-- Python `str.rstrip()` (ASCII whitespace). -/
def pyRStrip (cs : List Char) : List Char := (cs.reverse.dropWhile isPyWS).reverse

/-- Python `str.strip()` (ASCII whitespace). -/
def pyStrip (cs : List Char) : List Char := pyRStrip (pyLStrip cs)

/-- Not a modelled line boundary. -/
def notNL (c : Char) : Bool := !(c == '\n' || c == '\r')

/-- `splitlines` with explicit fuel (structural recursion; the remainder
shrinks by at least one character per step, so any fuel above `cs.length`
is never exhausted). -/
def splitlinesFuel : Nat → List Char → List (List Char)
  | 0, _ => []
  | fuel + 1, cs =>
      if cs.isEmpty then []
      else
        let line := cs.takeWhile notNL
        match cs.drop line.length with
        | '\r' :: '\n' :: rest => line :: splitlinesFuel fuel rest
        | '\r' :: rest => line :: splitlinesFuel fuel rest
        | '\n' :: rest => line :: splitlinesFuel fuel rest
        | _ => [line]

/-- Python `str.splitlines()` restricted to the boundaries `\n`, `\r\n`,
`\r`: boundaries terminate lines and a trailing boundary does not produce a
trailing empty line. -/
def splitlines (cs : List Char) : List (List Char) :=
  splitlinesFuel (cs.length + 1) cs

/-- Count of non-overlapping occurrences of the two-character pattern `a b`,
scanning left to right: `len(re.findall(...))` for the two-character bracket
patterns of `NunjucksPatterns.BRACKETS`. -/
def countPairOcc (a b : Char) : List Char → Nat
  | [] => 0
  | [_] => 0
  | c :: d :: rest =>
      if c == a && d == b then 1 + countPairOcc a b rest
      else countPairOcc a b (d :: rest)

/-! ## Pattern registry (`NunjucksPatterns`) -/

/-- `\s*` -/
def wsTok : RTok := .star isPyWS

/-- `\s+` -/
def ws1Tok : RTok := .plus isPyWS

/-- The `BLOCKS` keys, in the dictionary's insertion order. -/
def blockKinds : List String :=
  ["if", "for", "block", "macro", "call", "filter", "with", "without",
   "autoescape", "raw", "verbatim", "asynceach", "asyncall", "while"]

/-- Opening pattern of a block kind: `\{%\s*KIND\s+` for the argument-taking
kinds and `\{%\s*KIND\s*%\}` for `raw` and `verbatim`. -/
def openToks (kind : String) : List RTok :=
  if kind == "raw" || kind == "verbatim" then
    [.lit "\x7b%", wsTok, .lit kind, wsTok, .lit "%\x7d"]
  else
    [.lit "\x7b%", wsTok, .lit kind, ws1Tok]

/-- `open_pattern.search(line)` for a block kind. -/
def openSearch (kind : String) (line : List Char) : Bool :=
  searchToks (openToks kind) line

/-- `close_pattern.search(line)`: `\{%\s*endKIND\s*%\}`, except for `block`
whose close pattern `\{%\s*endblock\s*(?:\s+\w+)?\s*%\}` admits an optional
name; the optional group is expanded into a union of two token sequences. -/
def closeSearch (kind : String) (line : List Char) : Bool :=
  if kind == "block" then
    searchToks [.lit "\x7b%", wsTok, .lit "endblock", wsTok, .lit "%\x7d"] line ||
      searchToks [.lit "\x7b%", wsTok, .lit "endblock", ws1Tok, .plus isWordChar,
        wsTok, .lit "%\x7d"] line
  else
    searchToks [.lit "\x7b%", wsTok, .lit (String.append "end" kind), wsTok,
      .lit "%\x7d"] line

/-- `ELSE_ELIF` = `\{%\s*(?:else|elif|elseif)(?:\s|%)`, alternation expanded. -/
def elseElifSearch (line : List Char) : Bool :=
  searchToks [.lit "\x7b%", wsTok, .lit "else", .one (fun c => isPyWS c || c == '%')] line ||
    searchToks [.lit "\x7b%", wsTok, .lit "elif", .one (fun c => isPyWS c || c == '%')] line ||
    searchToks [.lit "\x7b%", wsTok, .lit "elseif", .one (fun c => isPyWS c || c == '%')] line

/-- The deprecated named-endif pattern `\{%\s*endif\s+\w+`. -/
def namedEndifSearch (line : List Char) : Bool :=
  searchToks [.lit "\x7b%", wsTok, .lit "endif", ws1Tok, .plus isWordChar] line

/-- `SECURITY['script_context']` = `<script[^>]*>` with `re.IGNORECASE`. -/
def scriptContextSearch (line : List Char) : Bool :=
  searchToks [.litCI "<script", .star (fun c => !(c == '>')), .lit ">"] line

/-- `SECURITY['unescaped_var']` = `\{\{\s*\w+\s*\}\}`. -/
def unescapedVarSearch (line : List Char) : Bool :=
  searchToks [.lit "\x7b\x7b", wsTok, .plus isWordChar, wsTok, .lit "\x7d\x7d"] line

/-- `SECURITY['escape_filter']` = `\|\s*(?:escape|e|safe)\b`, alternation
expanded; `\b` after a word is `noWordAhead`. -/
def escapeFilterSearch (line : List Char) : Bool :=
  searchToks [.lit "|", wsTok, .lit "escape", .noWordAhead] line ||
    searchToks [.lit "|", wsTok, .lit "e", .noWordAhead] line ||
    searchToks [.lit "|", wsTok, .lit "safe", .noWordAhead] line

/-- `SECURITY['user_input']` =
`\{\{\s*(?:user\.|request\.|params\.|query\.|\w*input\w*|\w*form\w*)`,
alternation expanded; the trailing `\w*` of the last two alternatives always
matches and is dropped. -/
def userInputSearch (line : List Char) : Bool :=
  searchToks [.lit "\x7b\x7b", wsTok, .lit "user."] line ||
    searchToks [.lit "\x7b\x7b", wsTok, .lit "request."] line ||
    searchToks [.lit "\x7b\x7b", wsTok, .lit "params."] line ||
    searchToks [.lit "\x7b\x7b", wsTok, .lit "query."] line ||
    searchToks [.lit "\x7b\x7b", wsTok, .star isWordChar, .lit "input"] line ||
    searchToks [.lit "\x7b\x7b", wsTok, .star isWordChar, .lit "form"] line

/-- The block-name capture `re.search(r'\{%\s*block\s+(\w+)', line)`. -/
def blockNameCapture (line : List Char) : Option (List Char) :=
  scanCaptureWord [.lit "\x7b%", wsTok, .lit "block", ws1Tok] line

/-- The extends capture `\{%\s*extends\s+["\']([^"\']+)["\']`. -/
def extendsCapture (line : List Char) : Option (List Char) :=
  scanCaptureQuoted [.lit "\x7b%", wsTok, .lit "extends", ws1Tok] line

/-- The include capture `\{%\s*include\s+["\']([^"\']+)["\']`. -/
def includeCapture (line : List Char) : Option (List Char) :=
  scanCaptureQuoted [.lit "\x7b%", wsTok, .lit "include", ws1Tok] line

/-! ## Data model -/

/-- The immutable issue record (`NunjucksIssue` NamedTuple). -/
structure NunjucksIssue where
  line : Nat
  severity : String
  message : String
  issue_type : String
deriving Repr, DecidableEq

/-- The analyzer statistics.  Of the source's fields, `blocks_defined` and
`extends_template` feed the template-structure check and `includes` is
populated by `_check_inheritance`; the write-only fields `blocks_used`,
`variables_used` and `filters_used` are never read by any issue-producing
check (nor is `includes`) and the first three are not carried by the
embedding.  Python sets are carried as lists of the inserted elements (only
emptiness of `blocks_defined` is ever read). -/
structure Stats where
  blocks_defined : List String
  extends_template : Option String
  includes : List String
deriving Repr, DecidableEq

/-- The tag stack: topmost entry first (Python appends and pops at the
list's end; `tag_stack[-1]` is the head here). -/
abbrev TagStack := List (String × Nat)

/-- The dictionary returned by `analyze`. -/
structure AnalysisResult where
  issues : List NunjucksIssue
  statistics : Stats
  is_valid : Bool
deriving Repr, DecidableEq

def initStats : Stats := ⟨[], none, []⟩

/-! ## Structural analyzer (`NunjucksAnalyzer`) -/

/-- The issue `f'Unmatched closing tag: end{block_name}'`. -/
def mismatchIssue (num : Nat) (kind : String) : NunjucksIssue :=
  ⟨num, "error", String.append "Unmatched closing tag: end" kind, "block_mismatch"⟩

/-- The issue `'else/elif outside of if/for block'`. -/
def elseIssue (num : Nat) : NunjucksIssue :=
  ⟨num, "error", "else/elif outside of if/for block", "syntax"⟩

/-- The issue `'Named endif is deprecated. Use {% endif %}.'`. -/
def deprecatedIssue (num : Nat) : NunjucksIssue :=
  ⟨num, "warning", "Named endif is deprecated. Use \x7b% endif %\x7d.", "deprecated"⟩

/-- One iteration of the `for block_name, (open_pattern, close_pattern) in
blocks` loop of `_check_blocks`: opening match pushes (and records the name
of a `block`); otherwise (`elif`) a closing match pops on an equal
top-of-stack kind and reports an unmatched closing tag otherwise. -/
def checkKindStep (line : List Char) (num : Nat) :
    TagStack × Stats × List NunjucksIssue → String →
      TagStack × Stats × List NunjucksIssue
  | (stack, stats, issues), kind =>
    if openSearch kind line then
      let stats' :=
        if kind == "block" then
          match blockNameCapture line with
          | some nm => { stats with blocks_defined := stats.blocks_defined ++ [String.mk nm] }
          | none => stats
        else stats
      ((kind, num) :: stack, stats', issues)
    else if closeSearch kind line then
      match stack with
      | (k, _) :: rest =>
          if k == kind then (rest, stats, issues)
          else (stack, stats, issues ++ [mismatchIssue num kind])
      | [] => (stack, stats, issues ++ [mismatchIssue num kind])
    else (stack, stats, issues)

/-- Is the `else`/`elif` context invalid:
`not self.tag_stack or self.tag_stack[-1][0] not in ['if', 'for']`. -/
def elseContextInvalid (st : TagStack) : Bool :=
  match st with
  | [] => true
  | (k, _) :: _ => !(k == "if" || k == "for")

/-- `_check_blocks`: the per-kind loop, then the else/elif placement check
(against the stack as left by the loop), then the deprecated named-endif
check. -/
def checkBlocksLine (line : List Char) (num : Nat) (st : TagStack)
    (stats : Stats) (issues : List NunjucksIssue) :
    TagStack × Stats × List NunjucksIssue :=
  let r := blockKinds.foldl (checkKindStep line num) (st, stats, issues)
  let issues' := r.2.2 ++
    (if elseElifSearch line && elseContextInvalid r.1 then [elseIssue num] else [])
  let issues'' := issues' ++
    (if namedEndifSearch line then [deprecatedIssue num] else [])
  (r.1, r.2.1, issues'')

/-- `_check_security`: the script-context warning, then the user-input
warning. -/
def securityIssues (line : List Char) (num : Nat) : List NunjucksIssue :=
  (if scriptContextSearch line && unescapedVarSearch line &&
      !escapeFilterSearch line then
    [⟨num, "warning",
      "Unescaped variable in JavaScript context. Use |tojson filter.",
      "security"⟩]
   else []) ++
  (if userInputSearch line && !escapeFilterSearch line then
    [⟨num, "warning", "User input should be escaped for security", "security"⟩]
   else [])

/-- `_check_inheritance`: record the extends target and any include. -/
def inheritanceUpdate (line : List Char) (stats : Stats) : Stats :=
  let stats' :=
    match extendsCapture line with
    | some nm => { stats with extends_template := some (String.mk nm) }
    | none => stats
  match includeCapture line with
  | some nm => { stats' with includes := stats'.includes ++ [String.mk nm] }
  | none => stats'

/-- `_analyze_line`: block checks, security checks, inheritance extraction.
(`_extract_variables` only populates the write-only statistics fields and
is not carried, see `Stats`.) -/
def analyzeLine (line : List Char) (num : Nat)
    (acc : TagStack × Stats × List NunjucksIssue) :
    TagStack × Stats × List NunjucksIssue :=
  let r := checkBlocksLine line num acc.1 acc.2.1 acc.2.2
  (r.1, inheritanceUpdate line r.2.1, r.2.2 ++ securityIssues line num)

/-- The `for line_num, line in enumerate(lines, 1)` loop of `analyze`. -/
def analyzeLines : List (List Char) → Nat →
    TagStack × Stats × List NunjucksIssue →
      TagStack × Stats × List NunjucksIssue
  | [], _, acc => acc
  | l :: ls, n, acc => analyzeLines ls (n + 1) (analyzeLine l n acc)

/-- The document-level bracket error
`f'Unmatched {bracket_type} brackets: {open_count} open, {close_count} close'`. -/
def bracketIssueFor (fam : String) (o c : Nat) : NunjucksIssue :=
  ⟨0, "error",
    String.append "Unmatched "
      (String.append fam
        (String.append " brackets: "
          (String.append (toString o)
            (String.append " open, "
                (String.append (toString c) " close"))))),
    "bracket_mismatch"⟩

/-- `_check_brackets`: the three families `variable`, `tag`, `comment` in
order of `BRACKETS`. -/
def checkBrackets (content : List Char) : List NunjucksIssue :=
  (if countPairOcc '\x7b' '\x7b' content != countPairOcc '\x7d' '\x7d' content then
    [bracketIssueFor "variable" (countPairOcc '\x7b' '\x7b' content)
      (countPairOcc '\x7d' '\x7d' content)]
   else []) ++
  (if countPairOcc '\x7b' '%' content != countPairOcc '%' '\x7d' content then
    [bracketIssueFor "tag" (countPairOcc '\x7b' '%' content)
      (countPairOcc '%' '\x7d' content)]
   else []) ++
  (if countPairOcc '\x7b' '#' content != countPairOcc '#' '\x7d' content then
    [bracketIssueFor "comment" (countPairOcc '\x7b' '#' content)
      (countPairOcc '#' '\x7d' content)]
   else [])

/-- `_check_unclosed_tags`: each remaining stack entry becomes
`f'Unclosed {tag_name} tag'`. -/
def unclosedIssueFor (e : String × Nat) : NunjucksIssue :=
  ⟨e.2, "error", String.append "Unclosed " (String.append e.1 " tag"), "unclosed_tag"⟩

/-- `_check_template_structure`. -/
def structureIssues (stats : Stats) : List NunjucksIssue :=
  if !stats.blocks_defined.isEmpty && stats.extends_template.isNone then
    [⟨0, "info",
      "Template defines blocks but doesn\x27t extend a base template",
      "template_structure"⟩]
  else []

/-- `NunjucksAnalyzer.analyze` on a character list: bracket pre-check,
line-by-line scan (1-based), unclosed-tag check (the Python loop walks the
stack bottom-up, hence the `reverse`), template-structure check, validity. -/
def analyzeChars (content : List Char) : AnalysisResult :=
  let bracketIssues := checkBrackets content
  let r := analyzeLines (splitlines content) 1 ([], initStats, bracketIssues)
  let issues := r.2.2 ++ r.1.reverse.map unclosedIssueFor
  let issues' := issues ++ structureIssues r.2.1
  ⟨issues', r.2.1, !(issues'.any (fun i => i.severity == "error"))⟩

/-- `NunjucksAnalyzer.analyze`. -/
def analyze (content : String) : AnalysisResult :=
  analyzeChars content.toList

/-- The final tag stack after the line scan of `analyze` (the entries that
`_check_unclosed_tags` walks). -/
def analyzeStack (content : String) : TagStack :=
  (analyzeLines (splitlines content.toList) 1
    ([], initStats, checkBrackets content.toList)).1

/-! ## Indentation formatter (`NunjucksFormatter`) -/

/-- The formatter's state: its indent unit.  The constructor performs no
validation. -/
structure NunjucksFormatter where
  indent_char : List Char
deriving Repr, DecidableEq

/-- `NunjucksFormatter.__init__`: `'\t' if use_tabs else ' ' * tab_size`
(Python's `' ' * n` is empty for `n <= 0`, which is `Int.toNat`). -/
def NunjucksFormatter.ofConfig (tab_size : Int) (use_tabs : Bool) : NunjucksFormatter :=
  ⟨if use_tabs then ['\t'] else List.replicate tab_size.toNat ' '⟩

/-- `self.indent_tags` (a Python set; iteration order is irrelevant to the
`any(...)` tests, so it is carried in the source's literal order). -/
def indentTags : List String :=
  ["if", "for", "block", "macro", "call", "filter", "with", "without",
   "autoescape", "raw", "verbatim", "asynceach", "asyncall", "while"]

/-- `self.dedent_tags`. -/
def dedentTags : List String :=
  ["endif", "endfor", "endblock", "endmacro", "endcall", "endfilter",
   "endwith", "endwithout", "endautoescape", "endraw", "endverbatim",
   "endasynceach", "endasyncall", "endwhile"]

/-- `self.temp_dedent_tags`. -/
def tempDedentTags : List String := ["else", "elif", "elseif"]

/-- `re.search(r'\{%\s*' + tag + r'(?:\s|%)', stripped)`. -/
def fmtTempHit (tag : String) (s : List Char) : Bool :=
  searchToks [.lit "\x7b%", wsTok, .lit tag, .one (fun c => isPyWS c || c == '%')] s

/-- `re.search(r'\{%\s*' + tag + r'\s*%\}', stripped)`. -/
def fmtEndHit (tag : String) (s : List Char) : Bool :=
  searchToks [.lit "\x7b%", wsTok, .lit tag, wsTok, .lit "%\x7d"] s

/-- `re.search(r'\{%\s*' + tag + r'\s+', stripped)`. -/
def fmtOpenHit (tag : String) (s : List Char) : Bool :=
  searchToks [.lit "\x7b%", wsTok, .lit tag, ws1Tok] s

/-- The formatter's temporary-dedent test on a stripped line. -/
def tempDedentHit (s : List Char) : Bool :=
  tempDedentTags.any (fun tag => fmtTempHit tag s)

/-- The formatter's permanent-dedent test on a stripped line. -/
def permDedentHit (s : List Char) : Bool :=
  dedentTags.any (fun tag => fmtEndHit tag s)

/-- The formatter's indent-increase test on a stripped line. -/
def indentOpenHit (s : List Char) : Bool :=
  indentTags.any (fun tag => fmtOpenHit tag s)

/-- One iteration of the formatting loop: the emitted line and the next
`indent_level`.  Nat subtraction is Python's `max(0, _ - 1)` since the level
is never negative. -/
def formatLineStep (ic : List Char) (indentLevel : Nat) (line : List Char) :
    List Char × Nat :=
  let stripped := pyStrip line
  if stripped.isEmpty then ([], indentLevel)
  else
    let tempDedent := tempDedentHit stripped
    let permDedent := permDedentHit stripped
    let currentIndent := indentLevel - (if tempDedent || permDedent then 1 else 0)
    let out := (List.replicate currentIndent ic).flatten ++ stripped
    let next :=
      if permDedent then indentLevel - 1
      else if indentOpenHit stripped then indentLevel + 1
      else indentLevel
    (out, next)

/-- The formatting loop over all lines. -/
def formatLines (ic : List Char) : List (List Char) → Nat → List (List Char)
  | [], _ => []
  | l :: ls, lvl =>
      let r := formatLineStep ic lvl l
      r.1 :: formatLines ic ls r.2

/-- `'\n'.join(...)`. -/
def joinNL : List (List Char) → List Char
  | [] => []
  | [l] => l
  | l :: ls => l ++ '\n' :: joinNL ls

/-- `NunjucksFormatter.format` on a character list. -/
def formatChars (ic : List Char) (content : List Char) : List Char :=
  joinNL (formatLines ic (splitlines content) 0)

/-- `NunjucksFormatter.format`. -/
def NunjucksFormatter.format (f : NunjucksFormatter) (content : String) : String :=
  String.mk (formatChars f.indent_char content.toList)

/-! ## Spec-side notions -/

/-- Modelled from the spec: the running block depth of a document, replayed
with the formatter's own dedent/open tests but without clamping, never goes
negative mid-document. -/
def depthTraceOk : List (List Char) → Int → Bool
  | [], _ => true
  | l :: ls, d =>
      let s := pyStrip l
      if s.isEmpty then depthTraceOk ls d
      else
        let d' := if permDedentHit s then d - 1
                  else if indentOpenHit s then d + 1
                  else d
        decide (0 ≤ d') && depthTraceOk ls d'

/-- Modelled from the spec: a well-nested document (depth never goes
negative mid-document). -/
def wellNestedDoc (t : String) : Bool :=
  depthTraceOk (splitlines t.toList) 0

/-! ## Theorems -/

/-- C1 (counterexample): on the one-line block `{% raw %}x{% endraw %}` the
line matches both the opening and the closing pattern of `raw`, yet the
analyzer leaves the tag stack one deeper (the close test is an `elif` of
the open test and is never evaluated), and an `unclosed_tag` error arises
from that line alone. -/
theorem c1_one_line_block_counterexample :
    openSearch "raw" (String.toList "\x7b% raw %\x7dx\x7b% endraw %\x7d") = true ∧
    closeSearch "raw" (String.toList "\x7b% raw %\x7dx\x7b% endraw %\x7d") = true ∧
    (checkBlocksLine (String.toList "\x7b% raw %\x7dx\x7b% endraw %\x7d") 1
        [] initStats []).1 = [("raw", 1)] ∧
    (analyze "\x7b% raw %\x7dx\x7b% endraw %\x7d").issues =
      [⟨1, "error", "Unclosed raw tag", "unclosed_tag"⟩] ∧
    (analyze "\x7b% raw %\x7dx\x7b% endraw %\x7d").is_valid = false :=
  ⟨by decide, by decide, by decide, by decide, by decide⟩

/-- C1 (amended): on a line matching both the opening and the closing
pattern of the same kind, the analyzer's per-kind check takes only the
opening branch (the closing test is an `elif`): it pushes the entry, pops
nothing and emits no issue, so the stack depth increases by one; the entry
is reported as an unclosed tag at end of document unless a later line
closes it. -/
theorem c1_one_line_block_pushes (kind : String) (line : List Char)
    (num : Nat) (st : TagStack) (stats : Stats)
    (issues : List NunjucksIssue)
    (ho : openSearch kind line = true)
    (_hc : closeSearch kind line = true) :
    (checkKindStep line num (st, stats, issues) kind).1 = (kind, num) :: st ∧
    (checkKindStep line num (st, stats, issues) kind).2.2 = issues := by
  simp [checkKindStep, ho]

/-- Witness for `c1_one_line_block_pushes` at the one-line `raw` block. -/
theorem c1_one_line_block_pushes_witness :
    (checkKindStep (String.toList "\x7b% raw %\x7dx\x7b% endraw %\x7d") 1
        ([], initStats, []) "raw").1 = [("raw", 1)] ∧
    (checkKindStep (String.toList "\x7b% raw %\x7dx\x7b% endraw %\x7d") 1
        ([], initStats, []) "raw").2.2 = ([] : List NunjucksIssue) :=
  c1_one_line_block_pushes "raw" _ 1 [] initStats [] (by decide) (by decide)

/-- C2 (counterexample): `"a\n\n"` is well-nested (it contains no tags at
all), yet `format` is not idempotent on it: each application drops the
trailing empty line, so `format(format(t)) = "a" ≠ "a\n" = format(t)`. -/
theorem c2_idempotence_counterexample :
    wellNestedDoc "a\n\n" = true ∧
    (NunjucksFormatter.ofConfig 2 false).format "a\n\n" = "a\n" ∧
    (NunjucksFormatter.ofConfig 2 false).format
        ((NunjucksFormatter.ofConfig 2 false).format "a\n\n") ≠
      (NunjucksFormatter.ofConfig 2 false).format "a\n\n" :=
  ⟨by decide, by decide, by decide⟩

/-- C3 (counterexample): `"}}"` contains no `{{`, `{%` or `{#`, yet
`analyze` reports a `bracket_mismatch` error for the variable family (the
close count is also checked), so the issue list is nonempty and
`isValid` is false. -/
theorem c3_counterexample :
    countPairOcc '\x7b' '\x7b' (String.toList "\x7d\x7d") = 0 ∧
    countPairOcc '\x7b' '%' (String.toList "\x7d\x7d") = 0 ∧
    countPairOcc '\x7b' '#' (String.toList "\x7d\x7d") = 0 ∧
    (analyze "\x7d\x7d").issues =
      [⟨0, "error", "Unmatched variable brackets: 0 open, 1 close",
        "bracket_mismatch"⟩] ∧
    (analyze "\x7d\x7d").is_valid = false :=
  ⟨by decide, by decide, by decide, by decide, by decide⟩

/-- C8 (counterexample): a line that contains both an opening `if` tag and
its matching `{% endif %}` sets the permanent-dedent flag, which takes
priority in the formatter: from `indent_level = 1` the level after the line
is `0`, not `1` — a one-line block does change the running indent level. -/
theorem c8_one_line_block_counterexample :
    fmtOpenHit "if" (String.toList "\x7b% if x %\x7dy\x7b% endif %\x7d") = true ∧
    fmtEndHit "endif" (String.toList "\x7b% if x %\x7dy\x7b% endif %\x7d") = true ∧
    (formatLineStep (List.replicate 2 ' ') 1
        (String.toList "\x7b% if x %\x7dy\x7b% endif %\x7d")).2 = 0 :=
  ⟨by decide, by decide, by decide⟩

/-- C8 (amended): in `format` the permanent-dedent branch takes priority:
a line whose stripped content matches a closing tag decrements the running
indent level (floored at zero) even when the same line also contains a
matching opening tag (a one-line block); only a line with an opening tag
and no permanent dedent increments the level. -/
theorem c8_perm_dedent_priority (ic : List Char) (lvl : Nat) (line : List Char) :
    (permDedentHit (pyStrip line) = true →
      (formatLineStep ic lvl line).2 = lvl - 1) ∧
    (permDedentHit (pyStrip line) = false →
      indentOpenHit (pyStrip line) = true →
      (formatLineStep ic lvl line).2 = lvl + 1) := by
  constructor
  · intro hp
    have hne : (pyStrip line).isEmpty = false := by
      cases hs : (pyStrip line).isEmpty
      · rfl
      · rw [List.isEmpty_iff] at hs
        rw [hs] at hp
        exact absurd hp (by decide)
    simp [formatLineStep, hne, hp]
  · intro hp hi
    have hne : (pyStrip line).isEmpty = false := by
      cases hs : (pyStrip line).isEmpty
      · rfl
      · rw [List.isEmpty_iff] at hs
        rw [hs] at hi
        exact absurd hi (by decide)
    simp [formatLineStep, hne, hp, hi]

/-- Witness for `c8_perm_dedent_priority`: a one-line `for` block takes
level 3 to 2; a plain opening `for` takes level 3 to 4. -/
theorem c8_perm_dedent_priority_witness :
    (formatLineStep (List.replicate 2 ' ') 3
        (String.toList "\x7b% for a in b %\x7dx\x7b% endfor %\x7d")).2 = 2 ∧
    (formatLineStep (List.replicate 2 ' ') 3
        (String.toList "\x7b% for a in b %\x7d")).2 = 4 :=
  ⟨(c8_perm_dedent_priority _ 3 _).1 (by decide),
   (c8_perm_dedent_priority _ 3 _).2 (by decide) (by decide)⟩

/-- C9 (counterexample): a negative `tab_size` is not rejected — there is
no validation in `NunjucksFormatter.__init__` and no InvalidConfiguration
failure anywhere: `' ' * (-1)` silently yields the empty indent unit and
the formatting loop runs to completion. -/
theorem c9_no_rejection_counterexample :
    (NunjucksFormatter.ofConfig (-1) false).indent_char = [] ∧
    (NunjucksFormatter.ofConfig (-1) false).format
        "\x7b% if x %\x7d\ny\n\x7b% endif %\x7d" =
      "\x7b% if x %\x7d\ny\n\x7b% endif %\x7d" :=
  ⟨by decide, by decide⟩

/-- C9 (amended): the constructor performs no validation: any non-positive
`tab_size` is accepted and behaves exactly like `tab_size = 0` (empty
indent unit); `format` is total on every text for every configuration. -/
theorem c9_nonpos_tab_size_accepted (tab_size : Int) (h : tab_size ≤ 0)
    (t : String) :
    (NunjucksFormatter.ofConfig tab_size false).format t =
      (NunjucksFormatter.ofConfig 0 false).format t := by
  have h0 : tab_size.toNat = 0 := Int.toNat_of_nonpos h
  simp [NunjucksFormatter.ofConfig, h0]

/-- Witness for `c9_nonpos_tab_size_accepted` at `tab_size = -1`. -/
theorem c9_nonpos_tab_size_accepted_witness :
    (NunjucksFormatter.ofConfig (-1) false).format "a" =
      (NunjucksFormatter.ofConfig 0 false).format "a" :=
  c9_nonpos_tab_size_accepted (-1) (by decide) "a"

/-- C4: when the analyzer's per-kind check sees a closing tag (the line
does not match the kind's opening pattern) and the stack is empty or its
top entry's kind differs, it emits the error
`'Unmatched closing tag: end{kind}'` of category `block_mismatch` and
leaves the stack exactly unchanged; it pops exactly when the top entry's
kind is the closed kind. -/
theorem c4_close_tag_discipline (kind : String) (line : List Char)
    (num : Nat) (st : TagStack) (stats : Stats)
    (issues : List NunjucksIssue)
    (ho : openSearch kind line = false)
    (hc : closeSearch kind line = true) :
    ((st = [] ∨ ∀ k ln rest, st = (k, ln) :: rest → k ≠ kind) →
      checkKindStep line num (st, stats, issues) kind =
        (st, stats, issues ++ [mismatchIssue num kind])) ∧
    (∀ ln rest, st = (kind, ln) :: rest →
      checkKindStep line num (st, stats, issues) kind =
        (rest, stats, issues)) := by
  constructor
  · intro hmis
    match st, hmis with
    | [], _ => simp [checkKindStep, ho, hc]
    | (k, ln) :: rest, hmis =>
      have hk : k ≠ kind := by
        cases hmis with
        | inl h => exact absurd h (by simp)
        | inr h => exact h k ln rest rfl
      have hbeq : (k == kind) = false := by
        simp [hk]
      simp [checkKindStep, ho, hc, hbeq]
  · intro ln rest hst
    subst hst
    simp [checkKindStep, ho, hc]

/-- Witness for `c4_close_tag_discipline`: a stray `{% endfor %}` above an
open `if` reports the mismatch and leaves the stack untouched; a matching
`{% endfor %}` above an open `for` pops it. -/
theorem c4_close_tag_discipline_witness :
    checkKindStep (String.toList "\x7b% endfor %\x7d") 2
        ([("if", 1)], initStats, []) "for" =
      ([("if", 1)], initStats, [mismatchIssue 2 "for"]) ∧
    checkKindStep (String.toList "\x7b% endfor %\x7d") 2
        ([("for", 1)], initStats, []) "for" =
      ([], initStats, []) :=
  ⟨(c4_close_tag_discipline "for" _ 2 [("if", 1)] initStats []
      (by decide) (by decide)).1
      (Or.inr (by
        intro k ln rest h
        cases h
        decide)),
   (c4_close_tag_discipline "for" _ 2 [("for", 1)] initStats []
      (by decide) (by decide)).2 1 [] rfl⟩

/-! Helper lemmas: issues appended by the per-kind loop are all of
category `block_mismatch`, so filters for other categories pass through. -/

theorem checkKindStep_filter (P : NunjucksIssue → Bool)
    (hP : ∀ n k, P (mismatchIssue n k) = false)
    (line : List Char) (num : Nat)
    (acc : TagStack × Stats × List NunjucksIssue) (kind : String) :
    ((checkKindStep line num acc kind).2.2).filter P = (acc.2.2).filter P := by
  obtain ⟨st, stats, issues⟩ := acc
  unfold checkKindStep
  by_cases h1 : openSearch kind line
  · simp [h1]
  · by_cases h2 : closeSearch kind line
    · cases st with
      | nil => simp [h1, h2, List.filter_append, hP]
      | cons e rest =>
        obtain ⟨k, ln⟩ := e
        by_cases h3 : k == kind
        · simp [h1, h2, h3]
        · simp [h1, h2, h3, List.filter_append, hP]
    · simp [h1, h2]

theorem foldKinds_filter (P : NunjucksIssue → Bool)
    (hP : ∀ n k, P (mismatchIssue n k) = false)
    (line : List Char) (num : Nat) (ks : List String)
    (acc : TagStack × Stats × List NunjucksIssue) :
    ((ks.foldl (checkKindStep line num) acc).2.2).filter P =
      (acc.2.2).filter P := by
  induction ks generalizing acc with
  | nil => rfl
  | cons k ks ih =>
      rw [List.foldl_cons, ih]
      exact checkKindStep_filter P hP line num acc k

/-! Helper lemmas for C3: a pattern whose first token is a literal can only
match where that literal occurs, so on delimiter-free text every
issue-producing search fails. -/

theorem matchToksFuel_lit_isPre {f : Nat} {s : String} {ts : List RTok}
    {cs : List Char} (h : matchToksFuel f (.lit s :: ts) cs = true) :
    s.toList <+: cs := by
  cases f with
  | zero => exact absurd h (by simp [matchToksFuel])
  | succ f =>
      rw [matchToksFuel, Bool.and_eq_true] at h
      exact List.isPrefixOf_iff_prefix.1 h.1

theorem searchToks_lit_occurs {s : String} {ts : List RTok} {cs : List Char}
    (h : searchToks (.lit s :: ts) cs = true) : s.toList <:+: cs := by
  induction cs with
  | nil =>
      rw [searchToks] at h
      exact (matchToksFuel_lit_isPre h).isInfix
  | cons c cs ih =>
      rw [searchToks, Bool.or_eq_true] at h
      rcases h with h | h
      · exact (matchToksFuel_lit_isPre h).isInfix
      · exact List.infix_cons (ih h)

theorem countPairOcc_zero {a b : Char} :
    ∀ {cs : List Char}, countPairOcc a b cs = 0 → ¬ ([a, b] <:+: cs)
  | [], _, hinf => by simp at hinf
  | [c], _, hinf => by
      rcases hinf with ⟨s, t, hst⟩
      have hlen := congrArg List.length hst
      simp [List.length_append] at hlen
      omega
  | c :: d :: rest, h, hinf => by
      rw [countPairOcc] at h
      by_cases hcd : (c == a && d == b) = true
      · rw [if_pos hcd] at h
        omega
      · rw [if_neg hcd] at h
        rcases List.infix_cons_iff.1 hinf with hpre | hinf'
        · rw [List.cons_prefix_cons] at hpre
          obtain ⟨hac, hpre2⟩ := hpre
          rw [List.cons_prefix_cons] at hpre2
          obtain ⟨hbd, _⟩ := hpre2
          apply hcd
          rw [Bool.and_eq_true, beq_iff_eq, beq_iff_eq]
          exact ⟨hac.symm, hbd.symm⟩
        · exact countPairOcc_zero h hinf'

theorem splitlinesFuel_occurs :
    ∀ (f : Nat) (cs : List Char), ∀ l ∈ splitlinesFuel f cs, l <:+: cs := by
  intro f
  induction f with
  | zero => intro cs l hl; simp [splitlinesFuel] at hl
  | succ f ih =>
      intro cs l hl
      rw [splitlinesFuel] at hl
      by_cases hemp : cs.isEmpty
      · rw [if_pos hemp] at hl
        simp at hl
      · rw [if_neg hemp] at hl
        simp only [] at hl
        have hdropSuf := List.drop_suffix (cs.takeWhile notNL).length cs
        split at hl
        · rename_i rest heq
          rcases List.mem_cons.1 hl with hline | hrest
          · exact hline ▸ (List.takeWhile_prefix notNL).isInfix
          · have hsuf : rest <:+ cs := by
              refine List.IsSuffix.trans ?_ hdropSuf
              rw [heq]
              exact ((List.suffix_cons '\n' rest).trans
                (List.suffix_cons '\r' ('\n' :: rest)))
            exact (ih rest l hrest).trans hsuf.isInfix
        · rename_i rest hne heq
          rcases List.mem_cons.1 hl with hline | hrest
          · exact hline ▸ (List.takeWhile_prefix notNL).isInfix
          · have hsuf : rest <:+ cs := by
              refine List.IsSuffix.trans ?_ hdropSuf
              rw [heq]
              exact List.suffix_cons '\r' rest
            exact (ih rest l hrest).trans hsuf.isInfix
        · rename_i rest heq
          rcases List.mem_cons.1 hl with hline | hrest
          · exact hline ▸ (List.takeWhile_prefix notNL).isInfix
          · have hsuf : rest <:+ cs := by
              refine List.IsSuffix.trans ?_ hdropSuf
              rw [heq]
              exact List.suffix_cons '\n' rest
            exact (ih rest l hrest).trans hsuf.isInfix
        · rcases List.mem_singleton.1 hl with hline
          exact hline ▸ (List.takeWhile_prefix notNL).isInfix

theorem splitlines_occurs {cs : List Char} {l : List Char}
    (h : l ∈ splitlines cs) : l <:+: cs :=
  splitlinesFuel_occurs _ cs l h

theorem openSearch_false {line : List Char}
    (h : ¬ (['\x7b', '%'] <:+: line)) (kind : String) :
    openSearch kind line = false := by
  cases hs : openSearch kind line
  · rfl
  · exfalso
    apply h
    unfold openSearch openToks at hs
    split at hs
    · exact searchToks_lit_occurs hs
    · exact searchToks_lit_occurs hs

theorem closeSearch_false {line : List Char}
    (h : ¬ (['\x7b', '%'] <:+: line)) (kind : String) :
    closeSearch kind line = false := by
  cases hs : closeSearch kind line
  · rfl
  · exfalso
    apply h
    unfold closeSearch at hs
    split at hs
    · rw [Bool.or_eq_true] at hs
      rcases hs with h1 | h1 <;> exact searchToks_lit_occurs h1
    · exact searchToks_lit_occurs hs

theorem elseElifSearch_false {line : List Char}
    (h : ¬ (['\x7b', '%'] <:+: line)) :
    elseElifSearch line = false := by
  cases hs : elseElifSearch line
  · rfl
  · exfalso
    apply h
    unfold elseElifSearch at hs
    rw [Bool.or_eq_true, Bool.or_eq_true] at hs
    rcases hs with (h1 | h1) | h1 <;> exact searchToks_lit_occurs h1

theorem namedEndifSearch_false {line : List Char}
    (h : ¬ (['\x7b', '%'] <:+: line)) :
    namedEndifSearch line = false := by
  cases hs : namedEndifSearch line
  · rfl
  · exact absurd (searchToks_lit_occurs hs) h

theorem unescapedVarSearch_false {line : List Char}
    (h : ¬ (['\x7b', '\x7b'] <:+: line)) :
    unescapedVarSearch line = false := by
  cases hs : unescapedVarSearch line
  · rfl
  · exact absurd (searchToks_lit_occurs hs) h

theorem userInputSearch_false {line : List Char}
    (h : ¬ (['\x7b', '\x7b'] <:+: line)) :
    userInputSearch line = false := by
  cases hs : userInputSearch line
  · rfl
  · exfalso
    apply h
    unfold userInputSearch at hs
    rw [Bool.or_eq_true, Bool.or_eq_true, Bool.or_eq_true, Bool.or_eq_true,
      Bool.or_eq_true] at hs
    rcases hs with ((((h1 | h1) | h1) | h1) | h1) | h1 <;>
      exact searchToks_lit_occurs h1

theorem checkKindStep_id {line : List Char}
    (ho : ∀ kind, openSearch kind line = false)
    (hc : ∀ kind, closeSearch kind line = false)
    (num : Nat) (acc : TagStack × Stats × List NunjucksIssue)
    (kind : String) : checkKindStep line num acc kind = acc := by
  obtain ⟨st, stats, issues⟩ := acc
  simp [checkKindStep, ho kind, hc kind]

theorem foldKinds_id {line : List Char}
    (ho : ∀ kind, openSearch kind line = false)
    (hc : ∀ kind, closeSearch kind line = false)
    (num : Nat) (ks : List String)
    (acc : TagStack × Stats × List NunjucksIssue) :
    ks.foldl (checkKindStep line num) acc = acc := by
  induction ks with
  | nil => rfl
  | cons k ks ih => rw [List.foldl_cons, checkKindStep_id ho hc, ih]

theorem analyzeLine_id {line : List Char}
    (hbp : ¬ (['\x7b', '%'] <:+: line))
    (hbb : ¬ (['\x7b', '\x7b'] <:+: line))
    (num : Nat) (st : TagStack) (stats : Stats)
    (issues : List NunjucksIssue) :
    (analyzeLine line num (st, stats, issues)).1 = st ∧
    (analyzeLine line num (st, stats, issues)).2.2 = issues ∧
    (analyzeLine line num (st, stats, issues)).2.1.blocks_defined =
      stats.blocks_defined := by
  have hblk : checkBlocksLine line num st stats issues = (st, stats, issues) := by
    unfold checkBlocksLine
    simp only []
    rw [foldKinds_id (openSearch_false hbp) (closeSearch_false hbp),
      elseElifSearch_false hbp, namedEndifSearch_false hbp]
    simp
  have hsec : securityIssues line num = [] := by
    simp [securityIssues, unescapedVarSearch_false hbb,
      userInputSearch_false hbb]
  have hinh : ∀ s : Stats,
      (inheritanceUpdate line s).blocks_defined = s.blocks_defined := by
    intro s
    unfold inheritanceUpdate
    cases extendsCapture line <;> cases includeCapture line <;> simp
  unfold analyzeLine
  simp only []
  rw [hblk]
  simp [hsec, hinh]

theorem analyzeLines_id :
    ∀ (ls : List (List Char)),
      (∀ l ∈ ls, ¬ (['\x7b', '%'] <:+: l) ∧ ¬ (['\x7b', '\x7b'] <:+: l)) →
      ∀ (n : Nat) (st : TagStack) (stats : Stats)
        (issues : List NunjucksIssue),
      (analyzeLines ls n (st, stats, issues)).1 = st ∧
      (analyzeLines ls n (st, stats, issues)).2.2 = issues ∧
      (analyzeLines ls n (st, stats, issues)).2.1.blocks_defined =
        stats.blocks_defined := by
  intro ls
  induction ls with
  | nil => exact fun _ _ _ _ _ => ⟨rfl, rfl, rfl⟩
  | cons l ls ih =>
      intro hl n st stats issues
      obtain ⟨h1, h2⟩ := hl l (List.mem_cons_self l ls)
      have hid := analyzeLine_id h1 h2 n st stats issues
      rw [analyzeLines]
      rcases hAE : analyzeLine l n (st, stats, issues) with ⟨st2, stats2, issues2⟩
      rw [hAE] at hid
      have hrec := ih (fun x hx => hl x (List.mem_cons_of_mem l hx))
        (n + 1) st2 stats2 issues2
      exact ⟨hrec.1.trans hid.1, hrec.2.1.trans hid.2.1,
        hrec.2.2.trans hid.2.2⟩

/-! Helper lemmas for C2: `pyStrip` absorbs an all-whitespace prefix of an
already-stripped string, and `splitlines` is a left inverse of joining with
newlines when every line is boundary-free and the last one is non-blank. -/

theorem head?_dropWhile_false (p : Char → Bool) (l : List Char) :
    ∀ c, (l.dropWhile p).head? = some c → p c = false := by
  intro c hc
  have h := List.head?_dropWhile_not p l
  rw [hc] at h
  exact h

theorem dropWhile_eq_self_of_head {p : Char → Bool} :
    ∀ {z : List Char}, (∀ c, z.head? = some c → p c = false) →
      z.dropWhile p = z
  | [], _ => rfl
  | c :: w, h => by
      have hc := h c rfl
      simp [List.dropWhile_cons, hc]

theorem dropWhile_idem (p : Char → Bool) (l : List Char) :
    (l.dropWhile p).dropWhile p = l.dropWhile p :=
  dropWhile_eq_self_of_head (head?_dropWhile_false p l)

theorem pyRStrip_isPre (y : List Char) : pyRStrip y <+: y := by
  have h : y.reverse.dropWhile isPyWS <:+ y.reverse :=
    List.dropWhile_suffix isPyWS
  have h2 := List.reverse_prefix.2 h
  rw [List.reverse_reverse] at h2
  exact h2

theorem head?_isPre {a b : List Char} (h : a <+: b) {c : Char}
    (hc : a.head? = some c) : b.head? = some c := by
  obtain ⟨t, ht⟩ := h
  subst ht
  cases a with
  | nil => simp at hc
  | cons x w => simpa using hc

theorem pyLStrip_pyRStrip_pyLStrip (x : List Char) :
    pyLStrip (pyRStrip (pyLStrip x)) = pyRStrip (pyLStrip x) := by
  apply dropWhile_eq_self_of_head
  intro c hc
  exact head?_dropWhile_false isPyWS x c (head?_isPre (pyRStrip_isPre _) hc)

theorem pyRStrip_idem (y : List Char) : pyRStrip (pyRStrip y) = pyRStrip y := by
  unfold pyRStrip
  rw [List.reverse_reverse, dropWhile_idem]

theorem pyStrip_ws_append {pre : List Char}
    (hpre : ∀ c ∈ pre, isPyWS c = true) (l : List Char) :
    pyStrip (pre ++ pyStrip l) = pyStrip l := by
  show pyRStrip (pyLStrip (pre ++ pyStrip l)) = pyStrip l
  have h1 : pyLStrip (pre ++ pyStrip l) = pyLStrip (pyStrip l) :=
    List.dropWhile_append_of_pos hpre
  rw [h1]
  show pyRStrip (pyLStrip (pyRStrip (pyLStrip l))) = pyStrip l
  rw [pyLStrip_pyRStrip_pyLStrip, pyRStrip_idem]
  rfl

theorem mem_pyStrip {c : Char} {x : List Char} (h : c ∈ pyStrip x) : c ∈ x := by
  unfold pyStrip pyRStrip pyLStrip at h
  rw [List.mem_reverse] at h
  have h2 : c ∈ (x.dropWhile isPyWS).reverse :=
    (List.dropWhile_sublist isPyWS).subset h
  rw [List.mem_reverse] at h2
  exact (List.dropWhile_sublist isPyWS).subset h2

theorem splitlinesFuel_notNL :
    ∀ (f : Nat) (cs : List Char), ∀ l ∈ splitlinesFuel f cs,
      ∀ c ∈ l, notNL c = true := by
  intro f
  induction f with
  | zero => intro cs l hl; simp [splitlinesFuel] at hl
  | succ f ih =>
      intro cs l hl
      rw [splitlinesFuel] at hl
      by_cases hemp : cs.isEmpty
      · rw [if_pos hemp] at hl
        simp at hl
      · rw [if_neg hemp] at hl
        simp only [] at hl
        split at hl
        · rename_i rest heq
          rcases List.mem_cons.1 hl with hline | hrest
          · exact fun c hc => List.mem_takeWhile_imp (hline ▸ hc)
          · exact ih rest l hrest
        · rename_i rest hne heq
          rcases List.mem_cons.1 hl with hline | hrest
          · exact fun c hc => List.mem_takeWhile_imp (hline ▸ hc)
          · exact ih rest l hrest
        · rename_i rest heq
          rcases List.mem_cons.1 hl with hline | hrest
          · exact fun c hc => List.mem_takeWhile_imp (hline ▸ hc)
          · exact ih rest l hrest
        · rcases List.mem_singleton.1 hl with hline
          exact fun c hc => List.mem_takeWhile_imp (hline ▸ hc)

theorem splitlines_notNL {cs l : List Char} (h : l ∈ splitlines cs) :
    ∀ c ∈ l, notNL c = true :=
  splitlinesFuel_notNL _ cs l h

theorem splitlinesFuel_congr :
    ∀ (f1 f2 : Nat) (cs : List Char), cs.length < f1 → cs.length < f2 →
      splitlinesFuel f1 cs = splitlinesFuel f2 cs := by
  intro f1
  induction f1 with
  | zero => intro f2 cs h _; exact absurd h (Nat.not_lt_zero _)
  | succ f1 ih =>
      intro f2 cs h1 h2
      cases f2 with
      | zero => exact absurd h2 (Nat.not_lt_zero _)
      | succ f2 =>
          rw [splitlinesFuel, splitlinesFuel]
          by_cases hemp : cs.isEmpty
          · rw [if_pos hemp, if_pos hemp]
          · rw [if_neg hemp, if_neg hemp]
            simp only []
            split
            · rename_i rest heq
              have hlen := congrArg List.length heq
              simp [List.length_drop] at hlen
              rw [ih f2 rest (by omega) (by omega)]
            · rename_i rest hne heq
              have hlen := congrArg List.length heq
              simp [List.length_drop] at hlen
              rw [ih f2 rest (by omega) (by omega)]
            · rename_i rest heq
              have hlen := congrArg List.length heq
              simp [List.length_drop] at hlen
              rw [ih f2 rest (by omega) (by omega)]
            · rfl

theorem splitlines_single {l : List Char} (hl : ∀ c ∈ l, notNL c = true)
    (hne : l ≠ []) : splitlines l = [l] := by
  unfold splitlines
  rw [splitlinesFuel]
  rw [if_neg (by simpa using hne)]
  simp only []
  rw [List.takeWhile_eq_self_iff.2 hl, List.drop_length]

theorem splitlines_cons_newline {l r : List Char}
    (hl : ∀ c ∈ l, notNL c = true) :
    splitlines (l ++ '\n' :: r) = l :: splitlines r := by
  unfold splitlines
  rw [splitlinesFuel]
  rw [if_neg (by simp)]
  simp only []
  have ht : (l ++ '\n' :: r).takeWhile notNL = l := by
    rw [List.takeWhile_append_of_pos hl,
      List.takeWhile_cons_of_neg (by simp [notNL]), List.append_nil]
  rw [ht, List.drop_left]
  show l :: splitlinesFuel (l ++ '\n' :: r).length r =
    l :: splitlinesFuel (r.length + 1) r
  rw [splitlinesFuel_congr (l ++ '\n' :: r).length (r.length + 1) r
    (by simp [List.length_append]; omega) (Nat.lt_succ_self _)]

theorem splitlines_joinNL :
    ∀ (L : List (List Char)),
      (∀ l ∈ L, ∀ c ∈ l, notNL c = true) →
      L.getLast? ≠ some [] →
      splitlines (joinNL L) = L
  | [], _, _ => rfl
  | [l], hnl, hlast => by
      rw [joinNL]
      have hne : l ≠ [] := by
        intro h
        exact hlast (by rw [h]; rfl)
      exact splitlines_single (hnl l (by simp)) hne
  | l :: l2 :: ls, hnl, hlast => by
      rw [joinNL]
      · rw [splitlines_cons_newline (hnl l (by simp))]
        rw [splitlines_joinNL (l2 :: ls) (fun x hx => hnl x (by simp [hx]))
          (by simpa using hlast)]
      · simp

theorem flatten_replicate_mem {ic : List Char} {n : Nat} {c : Char}
    (hc : c ∈ (List.replicate n ic).flatten) : c ∈ ic := by
  rw [List.mem_flatten] at hc
  obtain ⟨l, hl, hcl⟩ := hc
  rw [List.mem_replicate] at hl
  exact hl.2 ▸ hcl

theorem formatLineStep_strip {ic : List Char}
    (hic : ∀ c ∈ ic, isPyWS c = true) (lvl : Nat) (line : List Char) :
    pyStrip ((formatLineStep ic lvl line).1) = pyStrip line := by
  unfold formatLineStep
  by_cases hs : (pyStrip line).isEmpty
  · rw [if_pos hs]
    rw [List.isEmpty_iff] at hs
    rw [hs]
    rfl
  · rw [if_neg hs]
    simp only []
    exact pyStrip_ws_append
      (fun c hc => hic c (flatten_replicate_mem hc)) line

theorem formatLineStep_idem {ic : List Char}
    (hic : ∀ c ∈ ic, isPyWS c = true) (lvl : Nat) (line : List Char) :
    formatLineStep ic lvl ((formatLineStep ic lvl line).1) =
      formatLineStep ic lvl line := by
  have hstrip := formatLineStep_strip hic lvl line
  conv_lhs => rw [formatLineStep]
  rw [hstrip]
  conv_rhs => rw [formatLineStep]

theorem formatLines_idem {ic : List Char}
    (hic : ∀ c ∈ ic, isPyWS c = true) :
    ∀ (L : List (List Char)) (lvl : Nat),
      formatLines ic (formatLines ic L lvl) lvl = formatLines ic L lvl
  | [], _ => rfl
  | l :: ls, lvl => by
      rw [formatLines, formatLines, formatLineStep_idem hic,
        formatLines_idem hic ls ((formatLineStep ic lvl l).2)]

theorem formatLines_getLast {ic : List Char} :
    ∀ (L : List (List Char)) (lvl : Nat),
      (match L.getLast? with
       | none => True
       | some l => pyStrip l ≠ []) →
      (formatLines ic L lvl).getLast? ≠ some []
  | [], _, _ => by simp [formatLines]
  | [l], lvl, h => by
      have h' : pyStrip l ≠ [] := h
      rw [formatLines, formatLines]
      intro hc
      rw [List.getLast?_singleton] at hc
      have hout : (formatLineStep ic lvl l).1 = [] := by
        simpa using hc
      unfold formatLineStep at hout
      rw [if_neg (by simpa using h')] at hout
      simp only [] at hout
      rcases List.append_eq_nil.1 hout with ⟨_, h2⟩
      exact h' h2
  | l :: l2 :: ls, lvl, h => by
      rw [formatLines]
      have hrec : (formatLines ic (l2 :: ls)
          ((formatLineStep ic lvl l).2)).getLast? ≠ some [] :=
        formatLines_getLast (l2 :: ls) ((formatLineStep ic lvl l).2)
          (by simpa using h)
      rcases hF : formatLines ic (l2 :: ls) ((formatLineStep ic lvl l).2)
        with _ | ⟨x, xs⟩
      · rw [formatLines] at hF
        simp at hF
      · rw [hF] at hrec
        rw [List.getLast?_cons_cons]
        exact hrec

theorem formatLines_notNL {ic : List Char}
    (hic : ∀ c ∈ ic, notNL c = true) :
    ∀ (L : List (List Char)) (lvl : Nat),
      (∀ l ∈ L, ∀ c ∈ l, notNL c = true) →
      ∀ l' ∈ formatLines ic L lvl, ∀ c ∈ l', notNL c = true
  | [], _, _ => by simp [formatLines]
  | l :: ls, lvl, hL => by
      rw [formatLines]
      intro l' hl' c hc
      rcases List.mem_cons.1 hl' with h1 | h2
      · subst h1
        revert hc
        unfold formatLineStep
        by_cases hs : (pyStrip l).isEmpty
        · rw [if_pos hs]
          simp
        · rw [if_neg hs]
          simp only []
          intro hc
          rcases List.mem_append.1 hc with hca | hcb
          · exact hic c (flatten_replicate_mem hca)
          · exact hL l (by simp) c (mem_pyStrip hcb)
      · exact formatLines_notNL hic ls ((formatLineStep ic lvl l).2)
          (fun x hx => hL x (by simp [hx])) l' h2 c hc

/-- C2 (amended): `format` is idempotent on every document whose final line
is not blank (for any configuration); for documents ending in a blank final
line each application drops one trailing newline (see the counterexample),
so the original claim's well-nestedness proviso is neither needed nor
sufficient. -/
theorem c2_format_idempotent (tab_size : Int) (use_tabs : Bool) (t : String)
    (h : match (splitlines t.toList).getLast? with
         | none => True
         | some l => pyStrip l ≠ []) :
    (NunjucksFormatter.ofConfig tab_size use_tabs).format
        ((NunjucksFormatter.ofConfig tab_size use_tabs).format t) =
      (NunjucksFormatter.ofConfig tab_size use_tabs).format t := by
  have hicw : ∀ c ∈ (NunjucksFormatter.ofConfig tab_size use_tabs).indent_char,
      isPyWS c = true := by
    unfold NunjucksFormatter.ofConfig
    cases use_tabs with
    | false =>
        intro c hc
        simp at hc
        rw [hc.2]
        rfl
    | true =>
        intro c hc
        simp at hc
        rw [hc]
        rfl
  have hicn : ∀ c ∈ (NunjucksFormatter.ofConfig tab_size use_tabs).indent_char,
      notNL c = true := by
    unfold NunjucksFormatter.ofConfig
    cases use_tabs with
    | false =>
        intro c hc
        simp at hc
        rw [hc.2]
        rfl
    | true =>
        intro c hc
        simp at hc
        rw [hc]
        rfl
  set ic := (NunjucksFormatter.ofConfig tab_size use_tabs).indent_char with hic
  show String.mk (formatChars ic (String.mk (formatChars ic t.toList)).toList) =
    String.mk (formatChars ic t.toList)
  have htl : (String.mk (formatChars ic t.toList)).toList =
      formatChars ic t.toList := rfl
  rw [htl]
  congr 1
  unfold formatChars
  have hFn : ∀ l' ∈ formatLines ic (splitlines t.toList) 0,
      ∀ c ∈ l', notNL c = true :=
    formatLines_notNL hicn (splitlines t.toList) 0
      (fun l hl => splitlines_notNL hl)
  have hFl : (formatLines ic (splitlines t.toList) 0).getLast? ≠ some [] :=
    formatLines_getLast (splitlines t.toList) 0 h
  rw [splitlines_joinNL (formatLines ic (splitlines t.toList) 0) hFn hFl]
  rw [formatLines_idem hicw]

/-- Witness for `c2_format_idempotent` on a well-nested document with a
non-blank final line. -/
theorem c2_format_idempotent_witness :
    (NunjucksFormatter.ofConfig 2 false).format
        ((NunjucksFormatter.ofConfig 2 false).format
          "\x7b% if x %\x7d\n\x7b\x7b y \x7d\x7d\n\x7b% endif %\x7d") =
      (NunjucksFormatter.ofConfig 2 false).format
        "\x7b% if x %\x7d\n\x7b\x7b y \x7d\x7d\n\x7b% endif %\x7d" :=
  c2_format_idempotent 2 false
    "\x7b% if x %\x7d\n\x7b\x7b y \x7d\x7d\n\x7b% endif %\x7d"
    (by show pyStrip (String.toList "\x7b% endif %\x7d") ≠ []; decide)

theorem securityIssues_type (line : List Char) (num : Nat) :
    ∀ i ∈ securityIssues line num, i.issue_type = "security" := by
  intro i hi
  unfold securityIssues at hi
  rcases List.mem_append.1 hi with h1 | h2
  · split at h1
    · simp at h1
      rw [h1]
    · simp at h1
  · split at h2
    · simp at h2
      rw [h2]
    · simp at h2

theorem checkBlocksLine_filter (P : NunjucksIssue → Bool)
    (hPm : ∀ n k, P (mismatchIssue n k) = false)
    (hPe : ∀ n, P (elseIssue n) = false)
    (hPd : ∀ n, P (deprecatedIssue n) = false)
    (line : List Char) (num : Nat) (st : TagStack) (stats : Stats)
    (issues : List NunjucksIssue) :
    ((checkBlocksLine line num st stats issues).2.2).filter P =
      issues.filter P := by
  unfold checkBlocksLine
  simp only []
  rw [List.filter_append, List.filter_append]
  have h1 : (if elseElifSearch line &&
      elseContextInvalid
        ((blockKinds.foldl (checkKindStep line num) (st, stats, issues)).1) then
      [elseIssue num] else []).filter P = [] := by
    split
    · simp [hPe]
    · rfl
  have h2 : (if namedEndifSearch line then
      [deprecatedIssue num] else []).filter P = [] := by
    split
    · simp [hPd]
    · rfl
  rw [h1, h2, List.append_nil, List.append_nil]
  exact foldKinds_filter P hPm line num blockKinds (st, stats, issues)

theorem analyzeLine_filter (P : NunjucksIssue → Bool)
    (hPm : ∀ n k, P (mismatchIssue n k) = false)
    (hPe : ∀ n, P (elseIssue n) = false)
    (hPd : ∀ n, P (deprecatedIssue n) = false)
    (hPs : ∀ i, i.issue_type = "security" → P i = false)
    (line : List Char) (num : Nat)
    (acc : TagStack × Stats × List NunjucksIssue) :
    ((analyzeLine line num acc).2.2).filter P = (acc.2.2).filter P := by
  obtain ⟨st, stats, issues⟩ := acc
  unfold analyzeLine
  simp only []
  rw [List.filter_append]
  have hsec : (securityIssues line num).filter P = [] := by
    rw [List.filter_eq_nil_iff]
    intro i hi
    rw [hPs i (securityIssues_type line num i hi)]
    simp
  rw [hsec, List.append_nil]
  exact checkBlocksLine_filter P hPm hPe hPd line num st stats issues

theorem analyzeLines_filter (P : NunjucksIssue → Bool)
    (hPm : ∀ n k, P (mismatchIssue n k) = false)
    (hPe : ∀ n, P (elseIssue n) = false)
    (hPd : ∀ n, P (deprecatedIssue n) = false)
    (hPs : ∀ i, i.issue_type = "security" → P i = false)
    (ls : List (List Char)) (n : Nat)
    (acc : TagStack × Stats × List NunjucksIssue) :
    ((analyzeLines ls n acc).2.2).filter P = (acc.2.2).filter P := by
  induction ls generalizing n acc with
  | nil => rfl
  | cons l ls ih =>
      rw [analyzeLines, ih]
      exact analyzeLine_filter P hPm hPe hPd hPs l n acc

theorem checkBrackets_type (content : List Char) :
    ∀ i ∈ checkBrackets content, i.issue_type = "bracket_mismatch" := by
  intro i hi
  unfold checkBrackets at hi
  rcases List.mem_append.1 hi with h1 | h2
  · rcases List.mem_append.1 h1 with h3 | h4
    · split at h3
      · simp at h3
        rw [h3]
        rfl
      · simp at h3
    · split at h4
      · simp at h4
        rw [h4]
        rfl
      · simp at h4
  · split at h2
    · simp at h2
      rw [h2]
      rfl
    · simp at h2

theorem structureIssues_filter (P : NunjucksIssue → Bool)
    (hPt : ∀ i, i.issue_type = "template_structure" → P i = false)
    (stats : Stats) : (structureIssues stats).filter P = [] := by
  unfold structureIssues
  split
  · rw [List.filter_eq_nil_iff]
    intro i hi
    simp at hi
    subst hi
    rw [Bool.not_eq_true]
    apply hPt
    rfl
  · rfl

/-- C7: for a line matching an else/elif/elseif tag, the analyzer emits
the error `'else/elif outside of if/for block'` iff, at the time the check
runs (after the line's own block matching), the tag stack is empty or its
top entry's kind is neither `if` nor `for`. -/
theorem c7_else_elif_placement (line : List Char) (num : Nat)
    (st : TagStack) (stats : Stats)
    (h : elseElifSearch line = true) :
    (elseIssue num ∈ (checkBlocksLine line num st stats []).2.2 ↔
      elseContextInvalid
        ((blockKinds.foldl (checkKindStep line num) (st, stats, [])).1) = true) := by
  have hmem : elseIssue num ∉
      (blockKinds.foldl (checkKindStep line num) (st, stats, [])).2.2 := by
    intro hin
    have hfil := foldKinds_filter (fun i => i.issue_type == "syntax")
      (fun n k => rfl) line num blockKinds (st, stats, [])
    have hmf : elseIssue num ∈
        ((blockKinds.foldl (checkKindStep line num) (st, stats, [])).2.2).filter
          (fun i => i.issue_type == "syntax") :=
      List.mem_filter.2 ⟨hin, rfl⟩
    rw [hfil] at hmf
    simp at hmf
  have hdep : elseIssue num ∉
      (if namedEndifSearch line then [deprecatedIssue num] else []) := by
    by_cases hd : namedEndifSearch line
    · simp [hd, elseIssue, deprecatedIssue]
    · simp [hd]
  unfold checkBlocksLine
  simp only [h, Bool.true_and]
  constructor
  · intro hin
    rcases List.mem_append.1 hin with h1 | h2
    · rcases List.mem_append.1 h1 with h3 | h4
      · exact absurd h3 hmem
      · by_cases hc : elseContextInvalid
            ((blockKinds.foldl (checkKindStep line num) (st, stats, [])).1) = true
        · exact hc
        · rw [Bool.not_eq_true] at hc
          rw [hc] at h4
          simp at h4
    · exact absurd h2 hdep
  · intro hc
    refine List.mem_append.2 (Or.inl (List.mem_append.2 (Or.inr ?_)))
    rw [hc]
    simp

/-- Witness for `c7_else_elif_placement`: `{% else %}` with an open `if`
on top of the stack: no error is emitted there (the context is valid). -/
theorem c7_else_elif_placement_witness :
    elseElifSearch (String.toList "\x7b% else %\x7d") = true ∧
    (elseIssue 2 ∈ (checkBlocksLine (String.toList "\x7b% else %\x7d") 2
        [("if", 1)] initStats []).2.2 ↔
      elseContextInvalid
        ((blockKinds.foldl
          (checkKindStep (String.toList "\x7b% else %\x7d") 2)
          ([("if", 1)], initStats, [])).1) = true) :=
  ⟨by decide, c7_else_elif_placement _ 2 [("if", 1)] initStats (by decide)⟩

/-- C6: the issues of category `unclosed_tag` in any analysis are exactly
one error `'Unclosed {kind} tag'` per entry left on the tag stack, at the
line where that tag was opened (the Python loop walks the stack bottom-up);
and on `"{% if a %}\n{{ b }}"` the analyzer produces exactly one error,
of category `unclosed_tag`, at line 1. -/
theorem c6_unclosed_tag_errors :
    (∀ t : String,
      (analyze t).issues.filter (fun i => i.issue_type == "unclosed_tag") =
        (analyzeStack t).reverse.map unclosedIssueFor) ∧
    ((analyze "\x7b% if a %\x7d\n\x7b\x7b b \x7d\x7d").issues.filter
        (fun i => i.severity == "error") =
      [⟨1, "error", "Unclosed if tag", "unclosed_tag"⟩]) := by
  constructor
  · intro t
    unfold analyze analyzeChars analyzeStack
    simp only []
    rw [List.filter_append, List.filter_append]
    rw [analyzeLines_filter _ (fun n k => rfl) (fun n => rfl) (fun n => rfl)
      (fun i hi => by simp [hi])]
    have hcb : (checkBrackets t.toList).filter
        (fun i => i.issue_type == "unclosed_tag") = [] := by
      rw [List.filter_eq_nil_iff]
      intro i hi
      rw [Bool.not_eq_true]
      show (i.issue_type == "unclosed_tag") = false
      rw [checkBrackets_type t.toList i hi]
      rfl
    have hstr := structureIssues_filter
      (fun i => i.issue_type == "unclosed_tag")
      (fun i hi => by simp [hi])
    have hmap : ∀ l : TagStack,
        (l.map unclosedIssueFor).filter
          (fun i => i.issue_type == "unclosed_tag") = l.map unclosedIssueFor := by
      intro l
      rw [List.filter_eq_self]
      intro i hi
      rcases List.mem_map.1 hi with ⟨e, _, he⟩
      rw [← he]
      rfl
    rw [hcb, hstr, hmap]
    simp
  · decide

/-- C5: when the `{{` and `}}` counts differ, the issues of category
`bracket_mismatch` in the analysis are exactly one document-level (line 0)
error for the variable family carrying both counts in its message, plus one
such error for the tag (resp. comment) family exactly when that family's
counts differ. -/
theorem c5_variable_bracket_mismatch (t : String)
    (h : countPairOcc '\x7b' '\x7b' t.toList ≠
      countPairOcc '\x7d' '\x7d' t.toList) :
    (analyze t).issues.filter (fun i => i.issue_type == "bracket_mismatch") =
      bracketIssueFor "variable" (countPairOcc '\x7b' '\x7b' t.toList)
          (countPairOcc '\x7d' '\x7d' t.toList) ::
        ((if countPairOcc '\x7b' '%' t.toList ≠
              countPairOcc '%' '\x7d' t.toList then
            [bracketIssueFor "tag" (countPairOcc '\x7b' '%' t.toList)
              (countPairOcc '%' '\x7d' t.toList)]
          else []) ++
         (if countPairOcc '\x7b' '#' t.toList ≠
              countPairOcc '#' '\x7d' t.toList then
            [bracketIssueFor "comment" (countPairOcc '\x7b' '#' t.toList)
              (countPairOcc '#' '\x7d' t.toList)]
          else [])) := by
  unfold analyze analyzeChars
  simp only []
  rw [List.filter_append, List.filter_append]
  rw [analyzeLines_filter _ (fun n k => rfl) (fun n => rfl) (fun n => rfl)
    (fun i hi => by simp [hi])]
  have hstr := structureIssues_filter
    (fun i => i.issue_type == "bracket_mismatch")
    (fun i hi => by simp [hi])
  have hmap : ∀ l : TagStack,
      (l.map unclosedIssueFor).filter
        (fun i => i.issue_type == "bracket_mismatch") = [] := by
    intro l
    rw [List.filter_eq_nil_iff]
    intro i hi
    rcases List.mem_map.1 hi with ⟨e, _, he⟩
    rw [Bool.not_eq_true, ← he]
    rfl
  have hcbf : (checkBrackets t.toList).filter
      (fun i => i.issue_type == "bracket_mismatch") =
        checkBrackets t.toList := by
    rw [List.filter_eq_self]
    intro i hi
    show (i.issue_type == "bracket_mismatch") = true
    rw [checkBrackets_type t.toList i hi]
    rfl
  rw [hstr, hmap, hcbf, List.append_nil, List.append_nil]
  unfold checkBrackets
  have h' : countPairOcc '\x7b' '\x7b' t.data ≠
      countPairOcc '\x7d' '\x7d' t.data := h
  by_cases h2 : countPairOcc '\x7b' '%' t.data =
      countPairOcc '%' '\x7d' t.data <;>
    by_cases h3 : countPairOcc '\x7b' '#' t.data =
        countPairOcc '#' '\x7d' t.data <;>
      simp [h', h2, h3]

/-- Witness for `c5_variable_bracket_mismatch` at `"{{"` (one `{{`, zero
`}}`, tag and comment families balanced). -/
theorem c5_variable_bracket_mismatch_witness :
    (analyze "\x7b\x7b").issues.filter
        (fun i => i.issue_type == "bracket_mismatch") =
      [bracketIssueFor "variable" 1 0] :=
  (c5_variable_bracket_mismatch "\x7b\x7b" (by decide)).trans (by decide)

/-- C3 (amended): for every input containing none of the six delimiter
substrings `{{`, `}}`, `{%`, `%}`, `{#`, `#}`, `analyze` returns an empty
issue list and `isValid = true`.  (The original claim, which constrained
only the three opening delimiters, fails: close-delimiter counts are
checked too, see the counterexample.) -/
theorem c3_no_delimiters_clean (t : String)
    (h1 : countPairOcc '\x7b' '\x7b' t.toList = 0)
    (h2 : countPairOcc '\x7d' '\x7d' t.toList = 0)
    (h3 : countPairOcc '\x7b' '%' t.toList = 0)
    (h4 : countPairOcc '%' '\x7d' t.toList = 0)
    (h5 : countPairOcc '\x7b' '#' t.toList = 0)
    (h6 : countPairOcc '#' '\x7d' t.toList = 0) :
    (analyze t).issues = [] ∧ (analyze t).is_valid = true := by
  have hbr : checkBrackets t.toList = [] := by
    unfold checkBrackets
    rw [h1, h2, h3, h4, h5, h6]
    simp
  have hlines : ∀ l ∈ splitlines t.toList,
      ¬ (['\x7b', '%'] <:+: l) ∧ ¬ (['\x7b', '\x7b'] <:+: l) := by
    intro l hl
    exact ⟨fun hc => countPairOcc_zero h3 (hc.trans (splitlines_occurs hl)),
           fun hc => countPairOcc_zero h1 (hc.trans (splitlines_occurs hl))⟩
  have hid := analyzeLines_id (splitlines t.toList) hlines 1 [] initStats
    (checkBrackets t.toList)
  unfold analyze analyzeChars
  simp only []
  rcases hAE : analyzeLines (splitlines t.toList) 1
      ([], initStats, checkBrackets t.toList) with ⟨stf, statsf, issuesf⟩
  rw [hAE] at hid
  have hstf : stf = [] := hid.1
  have hisf : issuesf = [] := hid.2.1.trans hbr
  have hbdf : statsf.blocks_defined = ([] : List String) := hid.2.2
  have hstr : structureIssues statsf = [] := by
    unfold structureIssues
    rw [hbdf]
    simp
  simp [hstf, hisf, hstr]

/-- Witness for `c3_no_delimiters_clean` at `"hello world"`. -/
theorem c3_no_delimiters_clean_witness :
    (analyze "hello world").issues = [] ∧
    (analyze "hello world").is_valid = true :=
  c3_no_delimiters_clean "hello world" (by decide) (by decide) (by decide)
    (by decide) (by decide) (by decide)

/-- C10: on `"{% if x %}\n{% endif x %}"` the named endif does not match
the `if` close pattern, so the analyzer emits both the deprecation warning
(line 2) and an `unclosed_tag` error for the `if` opened at line 1, and
`is_valid` is false although the deprecation issue is only a warning. -/
theorem c10_named_endif_leaves_unclosed :
    closeSearch "if" (String.toList "\x7b% endif x %\x7d") = false ∧
    namedEndifSearch (String.toList "\x7b% endif x %\x7d") = true ∧
    (analyze "\x7b% if x %\x7d\n\x7b% endif x %\x7d").issues =
      [⟨2, "warning", "Named endif is deprecated. Use \x7b% endif %\x7d.",
        "deprecated"⟩,
       ⟨1, "error", "Unclosed if tag", "unclosed_tag"⟩] ∧
    (analyze "\x7b% if x %\x7d\n\x7b% endif x %\x7d").is_valid = false :=
  ⟨by decide, by decide, by decide, by decide⟩

end NunjucksToolbox
